import Mathlib

/-!
Verification of the query-templating and result-binding core of
SimonRichardson/nu-juju-data (package db/query), as a shallow embedding.
Statements are modelled as `List Char` (all relevant inputs are ASCII, so
character indices coincide with Go byte indices).  Go functions returning
`(T, error)` are modelled as `Except Err T`; a Go `panic` is modelled by a
dedicated constructor or by `Option.none`, as noted at each definition.
-/

namespace NuJuju

/-- Errors produced by the query core.  Each constructor corresponds to one
`errors.Errorf` (or `errors.NotSupportedf`) site in the Go source; the
constructor arguments keep the data interpolated into the Go message. -/
inductive Err where
  /-- query.go parseNames: "unexpected named argument found in statement". -/
  | unexpectedNamedArg
  /-- query.go parseRecords: "unexpected struct name in statement". -/
  | unexpectedStructChar
  /-- query.go parseRecords: "unexpected record statement %q". -/
  | unexpectedRecordStatement (s : String)
  /-- query.go parseRecords: "missing quote %q terminator for record statement". -/
  | missingQuote (c : Char)
  /-- query.go expandRecords: "no entity found with the name %q". -/
  | noEntity (name : String)
  /-- reflect.go parseTag: "unexpected empty tag". -/
  | emptyTag
  /-- reflect.go parseTag: "unexpected tag value %q". -/
  | badTagValue (s : String)
  /-- query.go ForOne: "expected all input values to be of the same kind". -/
  | kindMismatch
  /-- query.go ForOne: "expected one map for query, got %d". -/
  | oneMap (n : Nat)
  /-- Modelled from the spec: reflecting a destination value that is not a
  pointer is a KindMismatchError (spec section 4.6); the revision of the
  reflection entry point used by query.go is not present under src. -/
  | notPointer
  /-- query.go defaultScan: "number of entities does not match column length". -/
  | countMismatch (cols ents : Nat)
  /-- query.go defaultScan: errors.NotSupportedf("mixed entities"). -/
  | mixedEntities
  deriving DecidableEq, Repr

/-! ## Bind-parameter scanner (query.go: parseNames and helpers) -/

/-- query.go alphaNumeric: letters, digits or underscore (ASCII restriction of
Go unicode.IsLetter/IsDigit/IsNumber). -/
def alphaNumeric (a : Char) : Bool :=
  a.isAlpha || a.isDigit || a = '_'

/-- query.go numeric: digits only. -/
def numeric (a : Char) : Bool :=
  a.isDigit

/-- query.go prefixes map: the character class associated with a bind sigil,
or none if the character is not a sigil. -/
def sigilClass (c : Char) : Option (Char → Bool) :=
  if c = ':' then some alphaNumeric
  else if c = '@' then some alphaNumeric
  else if c = '$' then some alphaNumeric
  else if c = '?' then some numeric
  else none

/-- query.go isNameTerminator: whitespace, comma, semicolon or equals. -/
def isNameTerminator (a : Char) : Bool :=
  a.isWhitespace || a = ',' || a = ';' || a = '='

/-- query.go nameBinding: a scanned bind token (sigil rune and name). -/
structure nameBinding where
  sigil : Char
  name : String
  deriving DecidableEq, Repr

/-- The inner consume loop of parseNames: take characters satisfying the
sigil's class until a name terminator (returned unconsumed) or end of text;
any other character is the "unexpected named argument" parse error. -/
def consumeName (pred : Char → Bool) : List Char → Except Err (List Char × List Char)
  | [] => .ok ([], [])
  | c :: cs =>
    if pred c then
      match consumeName pred cs with
      | .error e => .error e
      | .ok (n, rest) => .ok (c :: n, rest)
    else if isNameTerminator c then .ok ([], c :: cs)
    else .error .unexpectedNamedArg

/-- The outer loop of parseNames over the statement suffix.  Mirrors the Go
index loop: a non-sigil character is stepped over; a '?' whose next character
is a name terminator is skipped (bare positional placeholder); otherwise the
name is consumed and the scan jumps to the next sigil occurrence (the Go code
does this via indexOfNamedArgs on the remaining text).  The fuel argument
only bounds the recursion; one unit is spent per outer iteration and each
iteration consumes at least one character, so `length + 1` fuel is never
exhausted for the top-level call. -/
def parseNamesAux : Nat → List Char → Except Err (List nameBinding)
  | 0, _ => .ok []
  | _ + 1, [] => .ok []
  | fuel + 1, c :: cs =>
    match sigilClass c with
    | none => parseNamesAux fuel cs
    | some pred =>
      if c = '?' && (match cs with | [] => false | d :: _ => isNameTerminator d) then
        parseNamesAux fuel cs
      else
        match consumeName pred cs with
        | .error e => .error e
        | .ok (n, rest) =>
          match parseNamesAux fuel (rest.dropWhile (fun x => (sigilClass x).isNone)) with
          | .error e => .error e
          | .ok tail => .ok (⟨c, String.mk n⟩ :: tail)

/-- Lexicographic comparison of character lists: the order Go uses to compare
strings (byte-wise; identical to character-wise comparison on ASCII text). -/
def charListLe : List Char → List Char → Bool
  | [], _ => true
  | _ :: _, [] => false
  | a :: as, b :: bs => if a < b then true else if b < a then false else charListLe as bs

/-- Go string comparison (`<=` on strings), used by sort.Slice / sort.Strings. -/
def strLe (a b : String) : Bool :=
  charListLe a.toList b.toList

/-- Go strings.TrimSpace on a character list: drop leading and trailing
whitespace. -/
def charTrim (l : List Char) : List Char :=
  ((l.dropWhile Char.isWhitespace).reverse.dropWhile Char.isWhitespace).reverse

/-- Go strings.TrimSpace. -/
def strTrim (s : String) : String :=
  String.mk (charTrim s.toList)

/-- Go strings.Split with a single-character separator: empty input yields one
empty piece, and every separator occurrence starts a new piece. -/
def splitOnChar (sep : Char) : List Char → List (List Char)
  | [] => [[]]
  | c :: cs =>
    if c = sep then [] :: splitOnChar sep cs
    else
      match splitOnChar sep cs with
      | [] => [[c]]
      | h :: t => (c :: h) :: t

/-- Go strings.ToLower (ASCII). -/
def strToLower (s : String) : String :=
  String.mk (s.toList.map Char.toLower)

/-- Go strings.ToUpper (ASCII). -/
def strToUpper (s : String) : String :=
  String.mk (s.toList.map Char.toUpper)

theorem charListLe_total : ∀ a b : List Char, charListLe a b = true ∨ charListLe b a = true := by
  intro a
  induction a with
  | nil => intro b; left; rfl
  | cons x xs ih =>
    intro b
    cases b with
    | nil => right; rfl
    | cons y ys =>
      rcases lt_trichotomy x y with h | h | h
      · left; simp [charListLe, h]
      · subst h
        rcases ih ys with h2 | h2
        · left; simp [charListLe, h2]
        · right; simp [charListLe, h2]
      · right; simp [charListLe, h]

theorem charListLe_trans :
    ∀ a b c : List Char, charListLe a b = true → charListLe b c = true →
      charListLe a c = true := by
  intro a
  induction a with
  | nil => intro b c _ _; rfl
  | cons x xs ih =>
    intro b c hab hbc
    cases b with
    | nil => simp [charListLe] at hab
    | cons y ys =>
      cases c with
      | nil => simp [charListLe] at hbc
      | cons z zs =>
        simp only [charListLe] at hab hbc ⊢
        rcases lt_trichotomy x y with hxy | hxy | hxy
        · rcases lt_trichotomy y z with hyz | hyz | hyz
          · simp [lt_trans hxy hyz]
          · subst hyz; simp [hxy]
          · simp [hyz, not_lt_of_lt hyz] at hbc
        · subst hxy
          simp [lt_irrefl] at hab
          rcases lt_trichotomy x z with hxz | hxz | hxz
          · simp [hxz]
          · subst hxz
            simp only [lt_irrefl, if_false] at hbc ⊢
            exact ih ys zs hab hbc
          · simp [hxz, not_lt_of_lt hxz] at hbc
        · simp [hxy, not_lt_of_lt hxy] at hab

/-- Ordering of scanned bind tokens: by name (the comparison used by the
sort.Slice call at the end of parseNames). -/
def nbLe (a b : nameBinding) : Prop :=
  strLe a.name b.name = true

instance : DecidableRel nbLe := fun a b =>
  inferInstanceAs (Decidable (strLe a.name b.name = true))

instance : IsTotal nameBinding nbLe :=
  ⟨fun a b => charListLe_total a.name.toList b.name.toList⟩

instance : IsTrans nameBinding nbLe :=
  ⟨fun _ _ _ h h2 => charListLe_trans _ _ _ h h2⟩

/-- query.go parseNames: scan the statement from the given offset and return
the bind tokens sorted by name. -/
def parseNames (stmt : String) (offset : Nat) : Except Err (List nameBinding) :=
  match parseNamesAux (stmt.length + 1) (stmt.toList.drop offset) with
  | .error e => .error e
  | .ok names => .ok (names.insertionSort nbLe)

theorem sigilClass_question : sigilClass '?' = some numeric := rfl

/-- Claim C7: for every statement containing bind tokens the scanner's result
list is sorted lexicographically by token name regardless of the tokens'
positions, and parsing
"SELECT :name FROM @table WHERE $id=1 AND ?42=2 AND ?=3;" yields exactly
[(?,"42"), ($,"id"), (:,"name"), (@,"table")]. -/
theorem claim_C7 :
    (∀ (stmt : String) (offset : Nat) (l : List nameBinding),
        parseNames stmt offset = .ok l → l.Sorted nbLe) ∧
    parseNames "SELECT :name FROM @table WHERE $id=1 AND ?42=2 AND ?=3;" 0 =
      .ok [⟨'?', "42"⟩, ⟨'$', "id"⟩, ⟨':', "name"⟩, ⟨'@', "table"⟩] := by
  constructor
  · intro stmt offset l h
    unfold parseNames at h
    cases haux : parseNamesAux (stmt.length + 1) (stmt.toList.drop offset) with
    | error e => rw [haux] at h; cases h
    | ok names =>
      rw [haux] at h
      cases h
      exact List.sorted_insertionSort nbLe names
  · rfl

theorem claim_C7_witness : List.Sorted nbLe [⟨':', "a"⟩, ⟨':', "b"⟩] :=
  claim_C7.1 ":b :a" 0 [⟨':', "a"⟩, ⟨':', "b"⟩] (by rfl)

/-- Claim C6 counterexample: a bare `?` that is the final character of the
statement IS added to the named-binding set (with an empty name), because the
skip applies only when a following character exists and is a terminator. -/
theorem claim_C6_counterexample : parseNames "?" 0 = .ok [⟨'?', ""⟩] := rfl

/-- Claim C6 (amended): a `?` sigil is skipped (left for driver-native
positional binding, not added to the binding set, no failure) exactly when
the next character is a name terminator (whitespace, comma, semicolon,
equals); a `?` that ends the text is added to the binding set with an empty
name; a `?` followed by any other non-digit character is the "unexpected
named argument" parse error. -/
theorem claim_C6 :
    (∀ (fuel : Nat) (c : Char) (cs : List Char), isNameTerminator c = true →
        parseNamesAux (fuel + 1) ('?' :: c :: cs) = parseNamesAux fuel (c :: cs)) ∧
    (∀ fuel : Nat, parseNamesAux (fuel + 1) ['?'] = .ok [⟨'?', ""⟩]) ∧
    (∀ (fuel : Nat) (c : Char) (cs : List Char),
        numeric c = false → isNameTerminator c = false →
        parseNamesAux (fuel + 1) ('?' :: c :: cs) = .error .unexpectedNamedArg) := by
  refine ⟨?_, ?_, ?_⟩
  · intro fuel c cs h
    simp [parseNamesAux, sigilClass_question, h]
  · intro fuel
    cases fuel <;> rfl
  · intro fuel c cs h1 h2
    simp [parseNamesAux, sigilClass_question, consumeName, h1, h2]

theorem claim_C6_witness :
    parseNamesAux 5 ['?', ';'] = parseNamesAux 4 [';'] ∧
    parseNamesAux 5 ['?'] = .ok [⟨'?', ""⟩] ∧
    parseNamesAux 5 ['?', 'a'] = .error .unexpectedNamedArg :=
  ⟨claim_C6.1 4 ';' [] (by rfl), claim_C6.2.1 4, claim_C6.2.2 4 'a' [] (by rfl) (by rfl)⟩

/-! ## Record-macro parser (query.go: indexOfRecordArgs, parseRecords) -/

/-- query.go AliasPrefix constant ("_pfx_"). -/
def aliasPfx : String := "_pfx_"

/-- query.go AliasSeparator constant ("_sfx_"). -/
def aliasSep : String := "_sfx_"

/-- query.go recordBinding.  The Go field `prefix` is called `pfx` here and
the Go field `end` is called `endPos` (both are reserved in this setting);
`start` and `endPos` are the offsets of the brace span in the original text. -/
structure recordBinding where
  name : String
  pfx : String
  start : Nat
  endPos : Nat
  deriving DecidableEq, Repr

/-- The inner loop of parseRecords scanning a `\x7b...\x7d` body (the suffix
after the opening brace): letters, whitespace and underscore are accumulated,
single/double quotes are counted but dropped, a closing brace stops the scan;
any other character is the "unexpected struct name" parse error.  Returns the
accumulated content, the two quote counts, the number of characters consumed
(including the closing brace when present) and whether a closing brace was
found. -/
def scanRecordBody : List Char → Except Err (List Char × Nat × Nat × Nat × Bool)
  | [] => .ok ([], 0, 0, 0, false)
  | c :: cs =>
    if c = '}' then .ok ([], 0, 0, 1, true)
    else if c.isAlpha || c.isWhitespace || c = '_' then
      match scanRecordBody cs with
      | .error e => .error e
      | .ok (content, sq, dq, n, closed) => .ok (c :: content, sq, dq, n + 1, closed)
    else if c = '\'' then
      match scanRecordBody cs with
      | .error e => .error e
      | .ok (content, sq, dq, n, closed) => .ok (content, sq + 1, dq, n + 1, closed)
    else if c = '"' then
      match scanRecordBody cs with
      | .error e => .error e
      | .ok (content, sq, dq, n, closed) => .ok (content, sq, dq + 1, n + 1, closed)
    else .error .unexpectedStructChar

/-- parseRecords' splitting of the trimmed body: one token is a bare name,
three tokens whose middle token lower-cases to "into" are qualifier and name;
anything else is the "unexpected record statement" parse error.  Returns
(qualifier, name). -/
def parseRecordParts (content : List Char) : Except Err (String × String) :=
  let recordStr := String.mk (charTrim content)
  match (splitOnChar ' ' recordStr.toList).map String.mk with
  | [n] => .ok ("", n)
  | [a, b, c] =>
    if strToLower b = "into" then .ok (a, c)
    else .error (.unexpectedRecordStatement recordStr)
  | _ => .error (.unexpectedRecordStatement recordStr)

/-- parseRecords' quote-parity check ("This is a very basic algorithm"): an
odd count of either quote character is the "missing quote terminator" error.
The Go code iterates a map of the two counters (nondeterministic order); the
model checks the single quote first. -/
def checkQuoteParity (sq dq : Nat) : Except Err Unit :=
  if sq % 2 ≠ 0 then .error (.missingQuote '\'')
  else if dq % 2 ≠ 0 then .error (.missingQuote '"')
  else .ok ()

/-- query.go parseRecords main loop, over the suffix of the statement that
starts at absolute position `pos`.  A suffix not starting with an opening
brace ends the loop; otherwise one record expression is scanned; when its
closing brace was found the loop jumps to the next opening brace (the Go code
does this via indexOfRecordArgs on the remaining text).  The `end` offset of
a binding is one past the closing brace (or the statement length plus one
when the brace span was never closed).  Fuel only bounds the recursion; each
iteration consumes at least the opening brace, so `length + 1` fuel is never
exhausted for the top-level call. -/
def parseRecordsAux : Nat → List Char → Nat → Except Err (List recordBinding)
  | 0, _, _ => .ok []
  | _ + 1, [], _ => .ok []
  | fuel + 1, c :: tailChars, pos =>
    if c ≠ '{' then .ok []
    else
      match scanRecordBody tailChars with
      | .error e => .error e
      | .ok (content, sq, dq, eaten, closed) =>
        match parseRecordParts content with
        | .error e => .error e
        | .ok (pfx, name) =>
          match checkQuoteParity sq dq with
          | .error e => .error e
          | .ok _ =>
            let endPos := if closed then pos + eaten + 1 else pos + eaten + 2
            let b : recordBinding := ⟨strTrim name, pfx, pos, endPos⟩
            if closed then
              let rest := tailChars.drop (eaten - 1)
              match rest.findIdx? (fun x => x = '{') with
              | none => .ok [b]
              | some k =>
                match parseRecordsAux fuel (rest.drop k) (pos + eaten + k) with
                | .error e => .error e
                | .ok tailBindings => .ok (b :: tailBindings)
            else .ok [b]

/-- query.go indexOfRecordArgs: position of the first opening brace. -/
def indexOfRecordArgs (stmt : String) : Option Nat :=
  stmt.toList.findIdx? (fun x => x = '{')

/-- query.go parseRecords: scan the statement for record expressions starting
at the given offset. -/
def parseRecords (stmt : String) (offset : Nat) : Except Err (List recordBinding) :=
  parseRecordsAux (stmt.length + 1) (stmt.toList.drop offset) offset

/-! ## Record-macro expander (query.go: fieldIntersections, expandRecords) -/

/-- The shape of reflect.go's ReflectStruct as the expander consumes it: the
declared type name and the logical column names of its fields (the keys of
the Fields map). -/
structure ReflectStructM where
  Name : String
  Fields : List String
  deriving DecidableEq, Repr

/-- The group built by fieldIntersections for one field name: the bound
entities whose field set contains it. -/
def entitiesWithField (entities : List ReflectStructM) (f : String) : List ReflectStructM :=
  entities.filter (fun e => decide (f ∈ e.Fields))

/-- query.go fieldIntersections, as the membership predicate of the map it
builds: with at most one bound entity nothing is computed; otherwise field
`f` is marked for entity name `entName` exactly when the group of entities
containing `f` has at least two members and some entity of that group is
named `entName`. -/
def fieldIntersections (entities : List ReflectStructM) (entName f : String) : Bool :=
  if entities.length ≤ 1 then false
  else
    decide (2 ≤ (entitiesWithField entities f).length ∧
      ∃ e ∈ entitiesWithField entities f, e.Name = entName)

/-- The per-field column expression built inside expandRecords: a bare field
name without a qualifier; otherwise the qualified name, with the
"_pfx_..._sfx_..." alias appended when the field is in the entity's
intersection set. -/
def decorateField (pfx : String) (inter : String → Bool) (name : String) : String :=
  if pfx = "" then name
  else
    pfx ++ "." ++ name ++
      (if inter name then " AS " ++ aliasPfx ++ pfx ++ aliasSep ++ name else "")

/-- One iteration of the expandRecords loop: find the first bound entity whose
declared name equals the binding's name (else the "no entity found" error),
decorate and sort its full field set, join with ", " and splice over the
offset-corrected brace span, returning the new text and the accumulated
offset correction. -/
def expandOne (stmt : List Char) (offset : Int) (r : recordBinding)
    (entities : List ReflectStructM) (inter : String → String → Bool) :
    Except Err (List Char × Int) :=
  match entities.find? (fun e => e.Name == r.name) with
  | none => .error (.noEntity r.name)
  | some e =>
    let names := e.Fields.map (decorateField r.pfx (inter e.Name))
    let recordList :=
      String.mk (List.intercalate ", ".toList
        ((names.insertionSort (fun a b => strLe a b = true)).map String.toList))
    let newStmt :=
      stmt.take (offset + (r.start : Int)).toNat ++ recordList.toList ++
        stmt.drop (offset + (r.endPos : Int)).toNat
    .ok (newStmt, offset + (recordList.length : Int) - ((r.endPos : Int) - (r.start : Int)))

instance : DecidableRel (fun a b : String => strLe a b = true) := fun a b =>
  inferInstanceAs (Decidable (strLe a b = true))

instance : IsTotal String (fun a b : String => strLe a b = true) :=
  ⟨fun a b => charListLe_total a.toList b.toList⟩

instance : IsTrans String (fun a b : String => strLe a b = true) :=
  ⟨fun _ _ _ h h2 => charListLe_trans _ _ _ h h2⟩

/-- The loop of expandRecords: apply expandOne left to right over the parsed
record bindings, threading the rewritten text and the running offset. -/
def expandRecordsGo (entities : List ReflectStructM) (inter : String → String → Bool) :
    List Char → Int → List recordBinding → Except Err (List Char)
  | s, _, [] => .ok s
  | s, offset, r :: rs =>
    match expandOne s offset r entities inter with
    | .error e => .error e
    | .ok (s2, off2) => expandRecordsGo entities inter s2 off2 rs

/-- query.go expandRecords: run the loop from offset zero. -/
def expandRecords (stmt : List Char) (records : List recordBinding)
    (entities : List ReflectStructM) (inter : String → String → Bool) :
    Except Err (List Char) :=
  expandRecordsGo entities inter stmt 0 records

/-- query.go Query.compileStatement: when the statement contains an opening
brace, parse the record expressions, compute the field intersections of the
bound entities and expand; otherwise the statement is returned unchanged with
no bindings. -/
def compileStatement (stmt : String) (entities : List ReflectStructM) :
    Except Err (String × List recordBinding) :=
  match indexOfRecordArgs stmt with
  | none => .ok (stmt, [])
  | some offset =>
    match parseRecords stmt offset with
    | .error e => .error e
    | .ok fields =>
      match expandRecords stmt.toList fields entities (fieldIntersections entities) with
      | .error e => .error e
      | .ok out => .ok (String.mk out, fields)

/-! ## Statement cache and the compile phase of the materialization
strategies (query.go: statementCache, Query.structScan, Query.sliceStructScan).
The database round-trip (hook invocation, tx.Query, column metadata, row
scanning) is external to this core; the model captures the phase up to and
including the cache write that structScan performs after a successful scan,
treating the database interaction of a successfully compiled statement as
succeeding.  Reaching the database (and hence the hook) is `executed`;
`failedCompile` is returned before any database interaction. -/

/-- query.go cachedStmt: the expanded text and parsed bindings memoized per
raw statement. -/
structure cachedStmt where
  stmt : String
  fields : List recordBinding
  deriving DecidableEq, Repr

/-- query.go statementCache, as the association of raw statement text to its
cached compilation (newest entry first; Get is lookup, Set is insert). -/
def StmtCache := List (String × cachedStmt)

instance : DecidableEq StmtCache :=
  inferInstanceAs (DecidableEq (List (String × cachedStmt)))

/-- statementCache.Get. -/
def cacheGet (c : StmtCache) (stmt : String) : Option cachedStmt :=
  List.lookup stmt c

/-- statementCache.Set. -/
def cacheSet (c : StmtCache) (stmt : String) (v : cachedStmt) : StmtCache :=
  (stmt, v) :: c

/-- Outcome of one structScan/sliceStructScan call, up to the statement that
reaches the database: `failedCompile` is an error returned before the hook is
invoked or the transaction queried; `executed` records the compiled text sent
to the database, whether it came from the statement cache, and the cache
contents after the call. -/
inductive StepResult where
  | failedCompile (e : Err)
  | executed (compiledStmt : String) (usedCache : Bool) (cacheAfter : StmtCache)
  deriving DecidableEq

/-- query.go Query.structScan, compile-and-cache phase: a cache hit reuses
the cached expanded text; a miss compiles, and after the (assumed successful)
database scan the compilation is cached only when expansion actually changed
the text. -/
def structScanStep (c : StmtCache) (stmt : String) (entities : List ReflectStructM) :
    StepResult :=
  match cacheGet c stmt with
  | some cached => .executed cached.stmt true c
  | none =>
    match compileStatement stmt entities with
    | .error e => .failedCompile e
    | .ok (compiledStmt, fields) =>
      .executed compiledStmt false
        (if stmt ≠ compiledStmt then cacheSet c stmt ⟨compiledStmt, fields⟩ else c)

/-- query.go Query.sliceStructScan, compile phase: compiles the statement on
every call against the slice's element type; the statement cache is neither
consulted nor populated. -/
def sliceStructScanStep (c : StmtCache) (stmt : String) (element : ReflectStructM) :
    StepResult :=
  match compileStatement stmt [element] with
  | .error e => .failedCompile e
  | .ok (compiledStmt, _) => .executed compiledStmt false c

/-! ## Reflective field mapper (reflect.go: parseTag, Reflect) -/

/-- reflect.go ReflectTag. -/
structure ReflectTag where
  Name : String
  OmitEmpty : Bool
  deriving DecidableEq, Repr

/-- reflect.go parseTag: an empty tag is an error; one option is the name;
two options require the second to be "omitempty" (else an error) and set the
flag, the name being the first option; any other option count falls out of
the Go switch and yields the zero tag with no error. -/
def parseTag (tag : String) : Except Err ReflectTag :=
  if tag = "" then .error .emptyTag
  else
    match (splitOnChar ',' tag.toList).map String.mk with
    | [o1] => .ok ⟨o1, false⟩
    | [o1, o2] =>
      if strToLower o2 = "omitempty" then .ok ⟨o1, true⟩
      else .error (.badTagValue o2)
    | _ => .ok ⟨"", false⟩

/-- reflect.go Reflect, over the struct shape as a list of
(Go field name, raw db tag) pairs: each field's tag is parsed (a tag error
fails the whole reflection) and its logical column name is the tag's name or,
when that is empty, the lower-cased field name.  The result lists
(column name, Go field name) in field order (the Go code stores them in a
map keyed by column name). -/
def reflectFields : List (String × String) → Except Err (List (String × String))
  | [] => .ok []
  | (fname, rawTag) :: rest =>
    match parseTag rawTag with
    | .error e => .error e
    | .ok tag =>
      match reflectFields rest with
      | .error e => .error e
      | .ok tailFields =>
        .ok ((if tag.Name = "" then strToLower fname else tag.Name, fname) :: tailFields)

/-! ## Query construction and the scalar strategy (query.go: Querier.ForOne,
Query.defaultScan) -/

/-- The reflect.Kind of a destination value as ForOne consumes it. -/
inductive GoKind where
  | kstruct
  | kmap
  | kslice
  | kscalar
  deriving DecidableEq, Repr

/-- A destination value passed to ForOne: whether it is a pointer, and the
kind of the pointed-to value. -/
structure DestValue where
  isPtr : Bool
  kind : GoKind
  deriving DecidableEq, Repr

/-- Modelled from the spec: the revision of the reflection entry point
returning the ReflectInfo variant that query.go consumes is not present under
src (src/db/query/reflect.go is an older revision without it); per spec
section 4.6, forOne "requires every value to be a pointer ... violating
either is a KindMismatchError", so reflecting a non-pointer destination
fails and otherwise yields the value's kind. -/
def reflectValueModel (v : DestValue) : Except Err GoKind :=
  if v.isPtr then .ok v.kind else .error .notPointer

/-- The reflection loop at the top of ForOne: reflect each value in order and
compare the kinds of values i-1 and i — but, as in the source, only when
i > 1, so the kinds of the first and second values are never compared.
`i` is the position of the head of the remaining list; `prev` is the kind of
the value before it. -/
def forOneReflectLoop : Nat → Option GoKind → List DestValue → Except Err (List GoKind)
  | _, _, [] => .ok []
  | i, prev, v :: rest =>
    match reflectValueModel v with
    | .error e => .error e
    | .ok k =>
      if 1 < i ∧ prev ≠ some k then .error .kindMismatch
      else
        match forOneReflectLoop (i + 1) (some k) rest with
        | .error e => .error e
        | .ok ks => .ok (k :: ks)

/-- The materialization strategy selected by ForOne. -/
inductive ForOnePlan where
  | structScan
  | mapScan
  | defaultScan
  deriving DecidableEq, Repr

/-- Outcome of ForOne: a Query with its strategy, an error, or a runtime
panic (the struct branch type-asserts every entity to ReflectStruct, which
panics on a non-struct entity). -/
inductive ForOneResult where
  | query (plan : ForOnePlan)
  | failed (e : Err)
  | panicked
  deriving DecidableEq, Repr

/-- query.go Querier.ForOne: reflect all values (with the i > 1 kind check),
then select the strategy from the first value's kind — no values or a
non-struct non-map first kind selects the positional scalar scan, a map first
kind requires exactly one value, a struct first kind type-asserts every
entity to a struct. -/
def forOne (values : List DestValue) : ForOneResult :=
  match forOneReflectLoop 0 none values with
  | .error e => .failed e
  | .ok kinds =>
    if values.isEmpty then .query .defaultScan
    else
      match kinds.head? with
      | none => .query .defaultScan
      | some .kstruct =>
        if kinds.all (fun k => k = .kstruct) then .query .structScan else .panicked
      | some .kmap =>
        if 1 < values.length then .failed (.oneMap values.length) else .query .mapScan
      | some _ => .query .defaultScan

/-- query.go Query.defaultScan, scan-target construction: the column count
must equal the entity count, and every entity must be a non-struct (a struct
entity among the destinations is the "mixed entities" not-supported error);
with zero columns and zero entities the scan trivially succeeds. -/
def defaultScanCheck (entities : List GoKind) (ncols : Nat) : Except Err Unit :=
  if ncols ≠ entities.length then .error (.countMismatch ncols entities.length)
  else if entities.any (fun k => k = .kstruct) then .error .mixedEntities
  else .ok ()

/-! ## Map-scan placeholder selection (query.go: zeroScanType) -/

/-- The scalar placeholder types zeroScanType can return. -/
inductive ScanPlaceholder where
  | stringP
  | int64P
  | boolP
  | float64P
  | byteSliceP
  deriving DecidableEq, Repr

/-- query.go zeroScanType: the declared database type name, upper-cased,
selects a zero-valued scalar placeholder; any name outside the closed catalog
panics ("unexpected type"), modelled as none. -/
def zeroScanType (t : String) : Option ScanPlaceholder :=
  let u := strToUpper t
  if u = "TEXT" then some .stringP
  else if u = "INTEGER" then some .int64P
  else if u = "BOOL" then some .boolP
  else if u = "REAL" then some .float64P
  else if u = "NUMERIC" then some .float64P
  else if u = "BLOB" then some .byteSliceP
  else none

/-- The closed catalog of recognized declared database type names. -/
def scanTypeCatalog : List String :=
  ["TEXT", "INTEGER", "BOOL", "REAL", "NUMERIC", "BLOB"]

/-! ## Claim theorems -/

/-- Claim C1 (code bug): ForOne is claimed to return a KindMismatchError at
construction for every mixed-kind input, and the comment above the check in
the source states the same intent ("Ensure that all the types are the same"),
but the guard reads `i > 1` instead of `i >= 1`, so the kinds of the first
and second values are never compared.  At the failing input — a pointer to a
scalar followed by a pointer to a struct — ForOne returns a Query with the
scalar strategy and no error; with a struct first and a map second it reaches
the struct branch and panics on the type assertion; only from the third value
on does the check fire.  The pointer requirement itself (modelled from the
spec, see reflectValueModel) is enforced. -/
theorem claim_C1 :
    forOne [⟨true, .kscalar⟩, ⟨true, .kstruct⟩] = .query .defaultScan ∧
    forOne [⟨true, .kstruct⟩, ⟨true, .kmap⟩] = .panicked ∧
    forOne [⟨true, .kstruct⟩, ⟨true, .kstruct⟩, ⟨true, .kmap⟩] = .failed .kindMismatch ∧
    forOne [⟨false, .kstruct⟩] = .failed .notPointer :=
  ⟨rfl, rfl, rfl, rfl⟩

/-- Claim C2 counterexample: a record macro whose qualifier is a comma-joined
list of dotted references — both the explicit-fields form and the wildcard
form named by the claim — does not parse: the dot hits the default case of
the body scanner and parseRecords fails with the "unexpected struct name"
error instead of producing a RecordBinding. -/
theorem claim_C2_counterexample :
    parseRecords "SELECT \x7btest.name, test.age INTO Person\x7d FROM test;" 7 =
      .error .unexpectedStructChar ∧
    parseRecords "SELECT \x7btest.* INTO Person\x7d FROM test;" 7 =
      .error .unexpectedStructChar :=
  ⟨rfl, rfl⟩

/-- The characters the parseRecords body scanner accepts without terminating:
letters, whitespace, underscore and the two quote characters. -/
def bodyChar (c : Char) : Bool :=
  (c.isAlpha || c.isWhitespace || c = '_') || (c = '\'' || c = '"')

/-- The body scanner rejects the first character that is not a letter,
whitespace, underscore, quote or the closing brace, whatever well-formed
content precedes it. -/
theorem scanRecordBody_reject :
    ∀ (pre : List Char) (c : Char) (rest : List Char),
      (∀ x ∈ pre, bodyChar x = true) → c ≠ '}' → bodyChar c = false →
      scanRecordBody (pre ++ c :: rest) = .error .unexpectedStructChar := by
  intro pre
  induction pre with
  | nil =>
    intro c rest _ hne hc
    simp only [bodyChar, Bool.or_eq_false_iff, decide_eq_false_iff_not] at hc
    obtain ⟨⟨⟨ha, hw⟩, hu⟩, hq1, hq2⟩ := hc
    simp [scanRecordBody, hne, ha, hw, hu, hq1, hq2]
  | cons x xs ih =>
    intro c rest hall hne hc
    have hx : bodyChar x = true := hall x (by simp)
    have hrec := ih c rest (fun y hy => hall y (by simp [hy])) hne hc
    have hxne : ¬ (x = '}') := by
      intro h
      subst h
      simp [bodyChar] at hx
    simp only [List.cons_append, scanRecordBody]
    rw [if_neg hxne]
    split_ifs <;> simp [List.append_eq, hrec]

/-- Claim C2 (amended): the dotted-list qualifier form is rejected, not
parsed — whenever the record macro at the parse offset contains, after any
run of accepted body characters (letters, whitespace, underscore, quotes), a
character that is neither accepted nor the closing brace (so in particular
the dots, commas and asterisks of `\x7bprefix.col1, prefix.col2 INTO Name\x7d`
or `\x7bprefix.* INTO Name\x7d`), parseRecords fails with the "unexpected
struct name in statement" parse error instead of producing a RecordBinding;
the recordBinding type carries only a name, a qualifier and the span
offsets — there is no explicit-fields set and no wildcard flag. -/
theorem claim_C2 :
    ∀ (stmt : String) (offset : Nat) (pre : List Char) (c : Char) (rest : List Char),
      stmt.toList.drop offset = '{' :: (pre ++ c :: rest) →
      (∀ x ∈ pre, bodyChar x = true) → c ≠ '}' → bodyChar c = false →
      parseRecords stmt offset = .error .unexpectedStructChar := by
  intro stmt offset pre c rest hdrop hall hne hc
  have hbody := scanRecordBody_reject pre c rest hall hne hc
  unfold parseRecords
  rw [hdrop]
  simp [parseRecordsAux, hbody]

theorem claim_C2_witness :
    parseRecords "SELECT \x7btest INTO Person, Extra.col\x7d FROM test;" 7 =
      .error .unexpectedStructChar :=
  claim_C2 "SELECT \x7btest INTO Person, Extra.col\x7d FROM test;" 7
    "test INTO Person".toList ',' " Extra.col\x7d FROM test;".toList
    (by rfl) (by decide) (by decide) (by decide)

/-- Claim C5 counterexample: a struct with a field carrying no db tag does
not get the lower-cased fallback — reflection fails outright, because
parseTag rejects the empty tag string that an absent tag produces. -/
theorem claim_C5_counterexample :
    reflectFields [("Name", "")] = .error .emptyTag :=
  rfl

/-- Claim C5 (amended): reflection fails for any struct type containing a
field with no db tag (the "unexpected empty tag" error); when reflection
succeeds, each field's logical column name is the tag's declared name when
the tag declares one, and the lower-cased Go field name when the tag's name
part is empty (which happens for tags such as ",omitempty", not for absent
tags). -/
theorem claim_C5 :
    (∀ (fields : List (String × String)) (p : String × String),
        p ∈ fields → p.2 = "" → ∃ e, reflectFields fields = .error e) ∧
    (∀ (fields : List (String × String)) (m : List (String × String)),
        reflectFields fields = .ok m →
        List.Forall₂
          (fun p q => ∃ tg, parseTag p.2 = .ok tg ∧
            q = (if tg.Name = "" then strToLower p.1 else tg.Name, p.1))
          fields m) := by
  constructor
  · intro fields
    induction fields with
    | nil => intro p hp; cases hp
    | cons hd rest ih =>
      intro p hp hempty
      rcases List.mem_cons.mp hp with h | h
      · subst h
        refine ⟨.emptyTag, ?_⟩
        simp [reflectFields, parseTag, hempty]
      · obtain ⟨e, he⟩ := ih p h hempty
        cases htag : parseTag hd.2 with
        | error e2 => exact ⟨e2, by simp [reflectFields, htag]⟩
        | ok tg => exact ⟨e, by simp [reflectFields, htag, he]⟩
  · intro fields
    induction fields with
    | nil =>
      intro m hm
      simp only [reflectFields] at hm
      cases hm
      exact List.Forall₂.nil
    | cons hd rest ih =>
      intro m hm
      simp only [reflectFields] at hm
      cases htag : parseTag hd.2 with
      | error e => rw [htag] at hm; cases hm
      | ok tg =>
        rw [htag] at hm
        cases hrest : reflectFields rest with
        | error e => rw [hrest] at hm; cases hm
        | ok tailFields =>
          rw [hrest] at hm
          cases hm
          exact List.Forall₂.cons ⟨tg, htag, rfl⟩ (ih tailFields hrest)

theorem claim_C5_witness :
    (∃ e, reflectFields [("ID", "id"), ("Name", "")] = .error e) ∧
    List.Forall₂
      (fun p q => ∃ tg, parseTag p.2 = .ok tg ∧
        q = (if tg.Name = "" then strToLower p.1 else tg.Name, p.1))
      [("ID", "id"), ("Name", ",omitempty")] [("id", "ID"), ("name", "Name")] :=
  ⟨claim_C5.1 [("ID", "id"), ("Name", "")] ("Name", "") (by simp) rfl,
   claim_C5.2 [("ID", "id"), ("Name", ",omitempty")] [("id", "ID"), ("name", "Name")] rfl⟩

/-- Claim C9: map-scan placeholder selection returns a zero-valued scalar
placeholder of the matching type for every declared database type name whose
upper-casing is in the closed catalog TEXT, INTEGER, BOOL, REAL, NUMERIC,
BLOB, and is a fatal panic (modelled as none) for every name outside it, so
under the precondition that all column type names are in the catalog the
panic branch is unreachable. -/
theorem claim_C9 :
    (∀ t : String, strToUpper t ∈ scanTypeCatalog → (zeroScanType t).isSome = true) ∧
    (∀ t : String, strToUpper t ∉ scanTypeCatalog → zeroScanType t = none) ∧
    zeroScanType "text" = some .stringP ∧
    zeroScanType "Integer" = some .int64P ∧
    zeroScanType "bool" = some .boolP ∧
    zeroScanType "real" = some .float64P ∧
    zeroScanType "NUMERIC" = some .float64P ∧
    zeroScanType "Blob" = some .byteSliceP := by
  refine ⟨?_, ?_, rfl, rfl, rfl, rfl, rfl, rfl⟩
  · intro t h
    simp only [scanTypeCatalog, List.mem_cons, List.not_mem_nil, or_false] at h
    unfold zeroScanType
    rcases h with h | h | h | h | h | h <;> simp [h]
  · intro t h
    simp only [scanTypeCatalog, List.mem_cons, List.not_mem_nil, or_false, not_or] at h
    obtain ⟨h1, h2, h3, h4, h5, h6⟩ := h
    unfold zeroScanType
    simp [h1, h2, h3, h4, h5, h6]

theorem claim_C9_witness :
    (zeroScanType "Text").isSome = true ∧ zeroScanType "DATETIME" = none :=
  ⟨claim_C9.1 "Text" (by decide), claim_C9.2.1 "DATETIME" (by decide)⟩

/-- Claim C10: ForOne with no destination values returns a Query without
error carrying the positional scalar strategy; a subsequent result set with
at least one column then fails the entity/column count check, while a
zero-column result passes the scan-target construction. -/
theorem claim_C10 :
    forOne [] = .query .defaultScan ∧
    (∀ n : Nat, 0 < n → defaultScanCheck [] n = .error (.countMismatch n 0)) ∧
    defaultScanCheck [] 0 = .ok () := by
  refine ⟨rfl, ?_, rfl⟩
  intro n hn
  unfold defaultScanCheck
  have hne : n ≠ List.length ([] : List GoKind) := by
    simpa using Nat.pos_iff_ne_zero.mp hn
  rw [if_pos hne]
  rfl

theorem claim_C10_witness :
    defaultScanCheck [] 1 = .error (.countMismatch 1 0) :=
  claim_C10.2.1 1 (by decide)

theorem length_entitiesWithField_le (es : List ReflectStructM) (f : String) :
    (entitiesWithField es f).length ≤ es.length :=
  List.length_filter_le _ es

/-- The intersection map marks a field of a bound entity exactly when the
field name occurs in at least two bound entities. -/
theorem fieldIntersections_spec (es : List ReflectStructM) (e : ReflectStructM) (f : String)
    (he : e ∈ es) (hf : f ∈ e.Fields) :
    (fieldIntersections es e.Name f = true ↔ 2 ≤ (entitiesWithField es f).length) := by
  unfold fieldIntersections
  by_cases hlen : es.length ≤ 1
  · rw [if_pos hlen]
    constructor
    · intro h; cases h
    · intro h
      have := le_trans h (length_entitiesWithField_le es f)
      omega
  · rw [if_neg hlen]
    rw [decide_eq_true_eq]
    constructor
    · intro h; exact h.1
    · intro h
      refine ⟨h, e, ?_, rfl⟩
      unfold entitiesWithField
      rw [List.mem_filter]
      exact ⟨he, by simpa using hf⟩

/-- Claim C3: for a record macro expanded against the entities bound in one
query — the matched entity being the first whose declared name equals the
macro's — (i) the result splices, over the brace span, the matched entity's
complete decorated field set sorted and joined with ", "; (ii) each emitted
column carries the generated "AS _pfx_<qualifier>_sfx_<field>" alias exactly
when the macro supplied a qualifier and the field name occurs in at least two
bound entities, is the qualified "qualifier.field" when only a qualifier was
given, and the bare field name otherwise; (iii) the emitted list is sorted;
and (iv) on a concrete two-macro statement the second span is spliced at the
offset corrected by the first substitution. -/
theorem claim_C3 :
    ∀ (stmt : List Char) (r : recordBinding) (es : List ReflectStructM) (e : ReflectStructM),
      es.find? (fun x => x.Name == r.name) = some e →
      (expandRecords stmt [r] es (fieldIntersections es) =
        .ok (stmt.take r.start ++
          (List.intercalate ", ".toList
            (((e.Fields.map (decorateField r.pfx (fieldIntersections es e.Name))).insertionSort
              (fun a b => strLe a b = true)).map String.toList)) ++
          stmt.drop r.endPos)) ∧
      (∀ f ∈ e.Fields,
        decorateField r.pfx (fieldIntersections es e.Name) f =
          if r.pfx ≠ "" ∧ 2 ≤ (entitiesWithField es f).length then
            r.pfx ++ "." ++ f ++ (" AS " ++ aliasPfx ++ r.pfx ++ aliasSep ++ f)
          else if r.pfx ≠ "" then r.pfx ++ "." ++ f
          else f) ∧
      List.Sorted (fun a b => strLe a b = true)
        ((e.Fields.map (decorateField r.pfx (fieldIntersections es e.Name))).insertionSort
          (fun a b => strLe a b = true)) ∧
      compileStatement "SELECT \x7bPerson\x7d, \x7bPlace\x7d FROM a, b;"
          [⟨"Person", ["name", "age"]⟩, ⟨"Place", ["city"]⟩] =
        .ok ("SELECT age, name, city FROM a, b;",
          [⟨"Person", "", 7, 15⟩, ⟨"Place", "", 17, 24⟩]) := by
  intro stmt r es e hfind
  refine ⟨?_, ?_, List.sorted_insertionSort _ _, by rfl⟩
  · simp only [expandRecords, expandRecordsGo, expandOne, hfind]
    simp
  · intro f hf
    unfold decorateField
    by_cases hp : r.pfx = ""
    · simp [hp]
    · rw [if_neg hp]
      have he : e ∈ es := List.mem_of_find?_eq_some hfind
      by_cases hcol : 2 ≤ (entitiesWithField es f).length
      · rw [if_pos ((fieldIntersections_spec es e f he hf).mpr hcol),
          if_pos ⟨hp, hcol⟩]
      · rw [if_neg (fun h => hcol ((fieldIntersections_spec es e f he hf).mp h)),
          if_neg (fun h => hcol h.2), if_pos hp]
        simp

theorem claim_C3_witness :
    expandRecords "SELECT \x7bPerson\x7d FROM a, b;".toList [⟨"Person", "t", 7, 15⟩]
        [⟨"Person", ["name", "age"]⟩, ⟨"Place", ["name"]⟩]
        (fieldIntersections [⟨"Person", ["name", "age"]⟩, ⟨"Place", ["name"]⟩]) =
      .ok ("SELECT t.age, t.name AS _pfx_t_sfx_name FROM a, b;".toList) ∧
    decorateField "t"
        (fieldIntersections [⟨"Person", ["name", "age"]⟩, ⟨"Place", ["name"]⟩] "Person")
        "name" =
      "t" ++ "." ++ "name" ++ (" AS " ++ aliasPfx ++ "t" ++ aliasSep ++ "name") := by
  have h := claim_C3 "SELECT \x7bPerson\x7d FROM a, b;".toList ⟨"Person", "t", 7, 15⟩
    [⟨"Person", ["name", "age"]⟩, ⟨"Place", ["name"]⟩] ⟨"Person", ["name", "age"]⟩ (by rfl)
  refine ⟨?_, ?_⟩
  · rw [h.1]
    rfl
  · rw [h.2.1 "name" (by simp)]
    rfl

/-- Claim C4 counterexample: the record-collection strategy obtained via
ForMany (sliceStructScan) recompiles the statement on every call — it neither
consults nor populates the statement cache, so the second identical call is
not served from the cache.  Starting from the empty cache, the call expands
the macro but returns the cache unchanged and unused; the second identical
call is therefore the very same computation, again with usedCache = false. -/
theorem claim_C4_counterexample :
    sliceStructScanStep [] "SELECT \x7bPerson\x7d FROM t;" ⟨"Person", ["name", "age"]⟩ =
      .executed "SELECT age, name FROM t;" false [] ∧
    sliceStructScanStep ([] : StmtCache) "SELECT \x7bPerson\x7d FROM t;"
        ⟨"Person", ["name", "age"]⟩ ≠
      .executed "SELECT age, name FROM t;" true [] := by
  refine ⟨rfl, ?_⟩
  intro h
  cases h

/-- Claim C4 (amended): for the single/multi-record strategy (structScan),
when a call compiled the statement (cache miss) and expansion changed the
text, the identical raw statement issued again through the same Querier is
served from the statement cache: no re-parse/re-expansion happens, the cache
is unchanged, and the compiled text is byte-identical to the first call's.
The record-collection strategy of ForMany is excluded — see the
counterexample.  (The model treats the database round-trip of a successfully
compiled statement as succeeding; structScan only writes the cache after a
successful scan.) -/
theorem claim_C4 :
    ∀ (c : StmtCache) (stmt : String) (es : List ReflectStructM) (cs : String)
      (c1 : StmtCache),
      structScanStep c stmt es = .executed cs false c1 → stmt ≠ cs →
      structScanStep c1 stmt es = .executed cs true c1 := by
  intro c stmt es cs c1 h hne
  cases hget : cacheGet c stmt with
  | some v =>
    simp only [structScanStep, hget] at h
    simp [StepResult.executed.injEq] at h
  | none =>
    cases hcomp : compileStatement stmt es with
    | error e =>
      simp only [structScanStep, hget, hcomp] at h
      cases h
    | ok p =>
      obtain ⟨cs2, fl⟩ := p
      simp only [structScanStep, hget, hcomp] at h
      rw [StepResult.executed.injEq] at h
      obtain ⟨h1, -, h3⟩ := h
      subst h1
      rw [if_pos hne] at h3
      subst h3
      have hlook : cacheGet (cacheSet c stmt ⟨cs2, fl⟩) stmt = some ⟨cs2, fl⟩ := by
        simp [cacheGet, cacheSet, List.lookup]
      simp [structScanStep, hlook]

theorem claim_C4_witness :
    structScanStep
        [("SELECT \x7bPerson\x7d FROM t;",
          ⟨"SELECT age, name FROM t;", [⟨"Person", "", 7, 15⟩]⟩)]
        "SELECT \x7bPerson\x7d FROM t;" [⟨"Person", ["name", "age"]⟩] =
      .executed "SELECT age, name FROM t;" true
        [("SELECT \x7bPerson\x7d FROM t;",
          ⟨"SELECT age, name FROM t;", [⟨"Person", "", 7, 15⟩]⟩)] :=
  claim_C4 [] "SELECT \x7bPerson\x7d FROM t;" [⟨"Person", ["name", "age"]⟩]
    "SELECT age, name FROM t;"
    [("SELECT \x7bPerson\x7d FROM t;",
      ⟨"SELECT age, name FROM t;", [⟨"Person", "", 7, 15⟩]⟩)]
    (by rfl) (by decide)

/-- If some parsed record binding names no bound entity, the expansion loop
fails with a "no entity found" error (for the first such binding it meets). -/
theorem expandRecordsGo_noEntity :
    ∀ (rs : List recordBinding) (es : List ReflectStructM)
      (inter : String → String → Bool) (s : List Char) (off : Int),
      (∃ r ∈ rs, ∀ e ∈ es, e.Name ≠ r.name) →
      ∃ nm, expandRecordsGo es inter s off rs = .error (.noEntity nm) := by
  intro rs
  induction rs with
  | nil =>
    intro es inter s off h
    obtain ⟨r, hr, _⟩ := h
    cases hr
  | cons r0 rest ih =>
    intro es inter s off h
    cases hfind : es.find? (fun x => x.Name == r0.name) with
    | none =>
      refine ⟨r0.name, ?_⟩
      simp [expandRecordsGo, expandOne, hfind]
    | some e0 =>
      obtain ⟨r, hr, hnone⟩ := h
      rcases List.mem_cons.mp hr with heq | hmem
      · exfalso
        have he0 : e0 ∈ es := List.mem_of_find?_eq_some hfind
        have := List.find?_some hfind
        rw [beq_iff_eq] at this
        exact hnone e0 he0 (heq ▸ this)
      · obtain ⟨nm, hnm⟩ := ih es inter
          (s.take (off + (r0.start : Int)).toNat ++
            (String.mk (List.intercalate ", ".toList
              (((e0.Fields.map (decorateField r0.pfx (inter e0.Name))).insertionSort
                (fun a b => strLe a b = true)).map String.toList))).toList ++
            s.drop (off + (r0.endPos : Int)).toNat)
          (off +
            ((String.mk (List.intercalate ", ".toList
              (((e0.Fields.map (decorateField r0.pfx (inter e0.Name))).insertionSort
                (fun a b => strLe a b = true)).map String.toList))).length : Int) -
            ((r0.endPos : Int) - (r0.start : Int)))
          ⟨r, hmem, hnone⟩
        refine ⟨nm, ?_⟩
        simpa [expandRecordsGo, expandOne, hfind] using hnm

/-- Claim C8 counterexample: the "no database call" guarantee does not hold
for every Query.query call — the statement cache is shared across all Query
values built from one Querier, so a raw statement cached by an earlier Query
(bound to the Person entity) hits the cache in a later Query bound only to
Other; expansion is skipped, no "no entity found" error is raised, and the
statement is executed against the transaction (hook invoked, database
called). -/
theorem claim_C8_counterexample :
    structScanStep
        [("SELECT \x7bPerson\x7d FROM t;", ⟨"SELECT name FROM t;", [⟨"Person", "", 7, 15⟩]⟩)]
        "SELECT \x7bPerson\x7d FROM t;" [⟨"Other", ["x"]⟩] =
      .executed "SELECT name FROM t;" true
        [("SELECT \x7bPerson\x7d FROM t;", ⟨"SELECT name FROM t;", [⟨"Person", "", 7, 15⟩]⟩)] :=
  rfl

/-- Claim C8 (amended): provided the raw statement is not already in the
Querier's statement cache, a Query.query call through the single/multi-record
strategy whose statement contains a record macro naming a type not bound into
that Query fails at compile time with the "no entity found with the name"
lookup error; the failedCompile outcome is returned before the observation
hook is invoked or the transaction queried, so no database call is made. -/
theorem claim_C8 :
    ∀ (c : StmtCache) (stmt : String) (es : List ReflectStructM) (off : Nat)
      (rs : List recordBinding),
      cacheGet c stmt = none →
      indexOfRecordArgs stmt = some off →
      parseRecords stmt off = .ok rs →
      (∃ r ∈ rs, ∀ e ∈ es, e.Name ≠ r.name) →
      ∃ nm, structScanStep c stmt es = .failedCompile (.noEntity nm) := by
  intro c stmt es off rs hget hidx hparse hunbound
  obtain ⟨nm, hnm⟩ :=
    expandRecordsGo_noEntity rs es (fieldIntersections es) stmt.toList 0 hunbound
  refine ⟨nm, ?_⟩
  have hexp : expandRecords stmt.toList rs es (fieldIntersections es) =
      .error (.noEntity nm) := hnm
  simp only [structScanStep, hget, compileStatement, hidx, hparse, hexp]

theorem claim_C8_witness :
    ∃ nm,
      structScanStep [] "SELECT \x7bMissing\x7d FROM t;" [⟨"Person", ["name"]⟩] =
        .failedCompile (.noEntity nm) :=
  claim_C8 [] "SELECT \x7bMissing\x7d FROM t;" [⟨"Person", ["name"]⟩] 7
    [⟨"Missing", "", 7, 16⟩] (by rfl) (by rfl) (by rfl)
    ⟨⟨"Missing", "", 7, 16⟩, by simp, by decide⟩

end NuJuju
